import Mathlib

/-!
Verification development for the sass repository (a SAS-language
interpreter written in C++).  The definitions below are a shallow
embedding of the interpreter core in src/sass/Interpreter.cpp and of the
string lexer in src/unnamed/part_001.  C++ doubles are modelled as
Option Rat: the value none stands for the IEEE NaN that the interpreter
uses as the numeric missing value (std::nan), and some q stands for a
finite double of value q (float rounding is abstracted away; every
quantity handled in the theorems is exactly representable).  C++
exceptions are modelled by threading an Option String error component
together with the environment, because a thrown std::runtime_error
leaves all mutations performed so far in place.  Loops whose
termination is not structural take an explicit fuel argument; the value
none of the surrounding Option marks fuel exhaustion (divergence of the
C++ loop), never a C++ error.
-/

namespace Sass

/-- A C++ double as used by the interpreter: none is NaN (the SAS numeric
missing value), some q is the finite value q. -/
abbrev SasNum := Option ℚ

/-- Value: the interpreter value type std::variant of double and
std::string (Interpreter.h / Dataset.h). -/
inductive Value where
  | num (q : SasNum)
  | str (s : String)
deriving DecidableEq, Repr

/-- Addition with IEEE NaN propagation: used for the + operator and for
loop-variable increments. -/
def numAdd (l r : SasNum) : SasNum :=
  match l, r with
  | some a, some b => some (a + b)
  | _, _ => none

/-- Subtraction with NaN propagation. -/
def numSub (l r : SasNum) : SasNum :=
  match l, r with
  | some a, some b => some (a - b)
  | _, _ => none

/-- Multiplication with NaN propagation. -/
def numMul (l r : SasNum) : SasNum :=
  match l, r with
  | some a, some b => some (a * b)
  | _, _ => none

/-- Division with NaN propagation (the zero-divisor guard is applied by
the caller, mirroring the source expression r != 0.0 ? l / r : nan). -/
def numDiv (l r : SasNum) : SasNum :=
  match l, r with
  | some a, some b => some (a / b)
  | _, _ => none

/-- IEEE comparison l < r: any comparison with NaN is false. -/
def cmpLtB (l r : SasNum) : Bool :=
  match l, r with
  | some a, some b => decide (a < b)
  | _, _ => false

/-- IEEE comparison l <= r: false when either side is NaN. -/
def cmpLeB (l r : SasNum) : Bool :=
  match l, r with
  | some a, some b => decide (a ≤ b)
  | _, _ => false

/-- IEEE equality l == r: false when either side is NaN. -/
def cmpEqB (l r : SasNum) : Bool :=
  match l, r with
  | some a, some b => decide (a = b)
  | _, _ => false

/-- IEEE inequality l != r: true when either side is NaN. -/
def cmpNeB (l r : SasNum) : Bool :=
  match l, r with
  | some a, some b => decide (a ≠ b)
  | _, _ => true

/-- The C++ test d != 0.0 used by the logical operators and by the IF
statements: NaN != 0.0 is true, so NaN counts as true here. -/
def truthy (x : SasNum) : Bool :=
  match x with
  | some a => decide (a ≠ 0)
  | none => true

/-- Binary-operator dispatch of Interpreter::evaluate (Interpreter.cpp
lines 489-503), applied after both operands have been converted with
toNumber.  Division by (exactly) zero yields NaN; comparisons return 1.0
or 0.0; unsupported operators throw. -/
def binOp (op : String) (l r : SasNum) : Except String SasNum :=
  if op = "+" then .ok (numAdd l r)
  else if op = "-" then .ok (numSub l r)
  else if op = "*" then .ok (numMul l r)
  else if op = "/" then .ok (if r = some 0 then none else numDiv l r)
  else if op = ">" then .ok (some (if cmpLtB r l then 1 else 0))
  else if op = "<" then .ok (some (if cmpLtB l r then 1 else 0))
  else if op = ">=" then .ok (some (if cmpLeB r l then 1 else 0))
  else if op = "<=" then .ok (some (if cmpLeB l r then 1 else 0))
  else if op = "==" then .ok (some (if cmpEqB l r then 1 else 0))
  else if op = "!=" then .ok (some (if cmpNeB l r then 1 else 0))
  else if op = "and" then .ok (some (if truthy l && truthy r then 1 else 0))
  else if op = "or" then .ok (some (if truthy l || truthy r then 1 else 0))
  else .error ("Unsupported binary operator: " ++ op)

/-- Whitespace accepted by strtod before the number (isspace in the C
locale). -/
def isSpaceChar (c : Char) : Bool :=
  c = ' ' || c = Char.ofNat 9 || c = Char.ofNat 10 || c = Char.ofNat 13 ||
  c = Char.ofNat 11 || c = Char.ofNat 12

/-- Numeric value of a decimal digit character. -/
def digitVal (c : Char) : ℕ := c.toNat - 48

/-- Value of a big-endian digit string, folded left as strtod scans it. -/
def digitsToNat (ds : List Char) : ℕ :=
  ds.foldl (fun a c => 10 * a + digitVal c) 0

/-- Integer power of ten on the rationals, written with Nat powers so it
evaluates inside the kernel. -/
def pow10 (e : ℤ) : ℚ :=
  if 0 ≤ e then ((10 : ℚ) ^ e.toNat) else 1 / ((10 : ℚ) ^ (-e).toNat)

/-- Value contributed by the fraction digits. -/
def fracToRat (ds : List Char) : ℚ :=
  (digitsToNat ds : ℚ) / ((10 : ℚ) ^ ds.length)

/-- Optional sign before the mantissa, as consumed by strtod. -/
def readSign (cs : List Char) : ℚ × List Char :=
  match cs with
  | [] => (1, [])
  | c :: rest => if c = '-' then (-1, rest) else if c = '+' then (1, rest) else (1, c :: rest)

/-- Exponent part after the letter e or E.  A malformed exponent (no
digits) is not consumed by strtod, which amounts to an exponent of 0. -/
def readExp (cs : List Char) : ℤ :=
  let p := match cs with
    | [] => ((1 : ℤ), ([] : List Char))
    | c :: rest => if c = '-' then (-1, rest) else if c = '+' then (1, rest) else (1, c :: rest)
  let ds := p.2.takeWhile Char.isDigit
  if ds.isEmpty then 0 else p.1 * (digitsToNat ds : ℤ)

/-- Model of std::stod (strtod) as called by Interpreter::toNumber:
optional leading whitespace, optional sign, decimal digits with an
optional fraction and exponent, trailing junk ignored; none models the
std::invalid_argument throw when no digits can be consumed.  Hexadecimal,
inf and nan spellings are outside the scope of this model. -/
def stodParse (s : String) : Option ℚ :=
  let cs := s.toList.dropWhile isSpaceChar
  let sg := readSign cs
  let ip := sg.2.takeWhile Char.isDigit
  let cs2 := sg.2.dropWhile Char.isDigit
  let fp := match cs2 with
    | [] => ([] : List Char)
    | c :: rest => if c = '.' then rest.takeWhile Char.isDigit else []
  let cs3 := match cs2 with
    | [] => ([] : List Char)
    | c :: rest => if c = '.' then rest.dropWhile Char.isDigit else c :: rest
  if ip.isEmpty && fp.isEmpty then none
  else
    let mant : ℚ := sg.1 * ((digitsToNat ip : ℚ) + fracToRat fp)
    let ex : ℤ := match cs3 with
      | [] => 0
      | c :: rest => if c = 'e' || c = 'E' then readExp rest else 0
    some (mant * pow10 ex)

/-- Interpreter::toNumber (Interpreter.cpp lines 418-431): a double is
returned unchanged (NaN included), a string goes through std::stod, and
the catch-all returns 0.0 - not the missing value. -/
def toNumber (v : Value) : SasNum :=
  match v with
  | .num q => q
  | .str s =>
    match stodParse s with
    | some q => some q
    | none => some 0

/-- Row: the column map of a dataset row (Row.columns, a std::map from
column name to Value).  The list is kept ordered by key through rinsert,
matching std::map iteration order. -/
abbrev Row := List (String × Value)

/-- Lookup in a row or variable map (std::map::find). -/
def rlookup (r : Row) (k : String) : Option Value :=
  match r with
  | [] => none
  | (k1, v1) :: rest => if k1 = k then some v1 else rlookup rest k

/-- Lexicographic character-list comparison, the std::less ordering on
std::string keys (byte order; all keys in play are ASCII). -/
def charListLt : List Char → List Char → Bool
  | [], [] => false
  | [], _ :: _ => true
  | _ :: _, [] => false
  | a :: as1, b :: bs1 =>
    if a.toNat < b.toNat then true
    else if b.toNat < a.toNat then false
    else charListLt as1 bs1

/-- The std::map key order on strings. -/
def strLtB (a b : String) : Bool := charListLt a.data b.data

/-- Map assignment columns[k] = v: overwrite an existing key or insert at
the key-ordered position (std::map keeps keys sorted). -/
def rinsert (r : Row) (k : String) (v : Value) : Row :=
  match r with
  | [] => [(k, v)]
  | (k1, v1) :: rest =>
    if k = k1 then (k, v) :: rest
    else if strLtB k k1 then (k, v) :: (k1, v1) :: rest
    else (k1, v1) :: rinsert rest k v

/-- Map erase by key (std::map::erase). -/
def rerase (r : Row) (k : String) : Row :=
  r.filter (fun kv => decide (kv.1 ≠ k))

/-- Lookup in the dataset catalog. -/
def dlookup (ds : List (String × List Row)) (k : String) : Option (List Row) :=
  match ds with
  | [] => none
  | (k1, v1) :: rest => if k1 = k then some v1 else dlookup rest k

/-- Overwrite-or-append assignment in the dataset catalog. -/
def dset (ds : List (String × List Row)) (k : String) (v : List Row) : List (String × List Row) :=
  match ds with
  | [] => [(k, v)]
  | (k1, v1) :: rest => if k1 = k then (k, v) :: rest else (k1, v1) :: dset rest k v

/-- Lookup in the interpreter array table (std::unordered_map arrays). -/
def alookup (ar : List (String × List String)) (k : String) : Option (List String) :=
  match ar with
  | [] => none
  | (k1, v1) :: rest => if k1 = k then some v1 else alookup rest k

/-- Overwrite-or-append assignment in the array table. -/
def aset (ar : List (String × List String)) (k : String) (v : List String) : List (String × List String) :=
  match ar with
  | [] => [(k, v)]
  | (k1, v1) :: rest => if k1 = k then (k, v) :: rest else (k1, v1) :: aset rest k v

/-- Env: the interpreter state - the DataEnvironment fields used by
Interpreter.cpp (variables, currentRow, title, the dataset catalog)
together with the Interpreter member state (byVariables, the retainVars
member written by executeRetain, arrays) and the log sink, which we model
as the list of error lines emitted by executeProgram.  currentDSName
names the dataset returned by env.getCurrentDataSet(). -/
structure Env where
  varTable : Row
  currentRow : Row
  byVariables : List String
  retainMember : List String
  arrays : List (String × List String)
  datasets : List (String × List Row)
  currentDSName : String
  title : String
  log : List String
deriving DecidableEq, Repr

/-- Rows of a dataset; a dataset that was never created reads as empty. -/
def rowsOf (env : Env) (name : String) : List Row :=
  (dlookup env.datasets name).getD []

/-- DataEnvironment::getOrCreateDataset: return the dataset if it exists,
otherwise create an empty one (the dataset-name resolution keyed on the
full name string). -/
def getOrCreateDataset (env : Env) (name : String) : Env :=
  if (dlookup env.datasets name).isSome then env
  else { env with datasets := env.datasets ++ [(name, [])] }

/-- Replace the rows of a dataset (creating it when absent). -/
def setRows (env : Env) (name : String) (rows : List Row) : Env :=
  { env with datasets := dset env.datasets name rows }

/-- Append one row to a dataset (DataSet::addRow). -/
def appendRowToDS (env : Env) (name : String) (row : Row) : Env :=
  setRows env name (rowsOf env name ++ [row])

/-- Modelled from the spec: DataEnvironment::setVariable is not under
src/.  Per spec sections 3 and 4.5 an assignment writes the program data
vector, whose values become the output row; Interpreter::evaluate reads
env.varTable, so the two views are kept in sync here. -/
def setVariable (env : Env) (n : String) (v : Value) : Env :=
  { env with varTable := rinsert env.varTable n v,
             currentRow := rinsert env.currentRow n v }

/-- Truncation toward zero, as static_cast from double to int behaves for
in-range finite values (the cast of NaN is undefined behaviour in C++ and
is modelled as 0 here). -/
def truncToInt (q : SasNum) : ℤ :=
  match q with
  | some a => if 0 ≤ a then ⌊a⌋ else ⌈a⌉
  | none => 0

/-- Interpreter::getArrayElement (Interpreter.cpp lines 562-578):
1-based indexing into the declared variable list; an undefined array or an
index outside 1..size throws; a declared variable absent from the current
row reads as 0.0. -/
def getArrayElement (arrays : List (String × List String)) (row : Row)
    (name : String) (index : ℤ) : Except String Value :=
  match alookup arrays name with
  | none => .error ("Undefined array: " ++ name)
  | some vars =>
    if index < 1 || (vars.length : ℤ) < index then
      .error ("Array index out of bounds for array: " ++ name)
    else
      let varName := vars.getD (index - 1).toNat ""
      match rlookup row varName with
      | some v => .ok v
      | none => .ok (.num (some 0))

/-- Interpreter::setArrayElement (Interpreter.cpp lines 580-589): same
guards as getArrayElement; writes the value into the current row under
the selected variable name. -/
def setArrayElement (arrays : List (String × List String)) (row : Row)
    (name : String) (index : ℤ) (v : Value) : Except String Row :=
  match alookup arrays name with
  | none => .error ("Undefined array: " ++ name)
  | some vars =>
    if index < 1 || (vars.length : ℤ) < index then
      .error ("Array index out of bounds for array: " ++ name)
    else
      .ok (rinsert row (vars.getD (index - 1).toNat "") v)

/-- Expr: the expression nodes handled by Interpreter::evaluate.
NumberNode literals are modelled as rationals.  FunctionCallNode is not
modelled (no claim concerns the function library). -/
inductive Expr where
  | numE (v : ℚ)
  | strE (s : String)
  | varE (name : String)
  | binE (op : String) (l r : Expr)
  | arrE (name : String) (idx : Expr)
deriving Repr

/-- Interpreter::evaluate (Interpreter.cpp lines 456-507): literals
evaluate to themselves; an unknown variable warns and yields NaN; binary
operators convert both operands with toNumber and dispatch through binOp;
array elements go through getArrayElement with the index truncated to
int. -/
def evaluate (e : Expr) (env : Env) : Except String Value :=
  match e with
  | .numE v => .ok (.num (some v))
  | .strE s => .ok (.str s)
  | .varE n =>
    match rlookup env.varTable n with
    | some v => .ok v
    | none => .ok (.num none)
  | .binE op l r => do
    let lv ← evaluate l env
    let rv ← evaluate r env
    let res ← binOp op (toNumber lv) (toNumber rv)
    pure (.num res)
  | .arrE name idx => do
    let iv ← evaluate idx env
    getArrayElement env.arrays env.currentRow name (truncToInt (toNumber iv))

/-- DSStmt: the statement nodes dispatched inside a DATA step body
(Interpreter.cpp lines 169-201) and inside a DO body (lines 615-643).
SetStatementNode does not exist: the input dataset is a field of the
DataStepNode itself.  MergeStatementNode and ByStatementNode can occur
in a body; the body dispatch rejects them (the merge is pre-scanned). -/
inductive DSStmt where
  | assign (varName : String) (e : Expr)
  | ifThen (cond : Expr) (thenStmts : List DSStmt)
  | output
  | drop (vars : List String)
  | keep (vars : List String)
  | retain (vars : List String)
  | arrayDecl (name : String) (size : ℕ) (vars : List String)
  | doLoop (loopVar : String) (startE endE : Expr) (incE : Option Expr)
      (body : List DSStmt)
  | mergeStmt (dsNames : List String)
  | byStmt (vars : List String)
deriving Repr

/-- Interpreter::executeAssignment (lines 294-298): evaluate the right
hand side and store it through env.setVariable. -/
def executeAssignment (varName : String) (e : Expr) (env : Env) : Env × Option String :=
  match evaluate e env with
  | .error m => (env, some m)
  | .ok v => (setVariable env varName v, none)

/-- Interpreter::executeDrop (lines 510-515): erase each listed variable
from the current row. -/
def executeDrop (vars : List String) (env : Env) : Env :=
  { env with currentRow := vars.foldl rerase env.currentRow }

/-- Interpreter::executeKeep (lines 518-531): erase every current-row
variable that is not in the keep list (order of survivors preserved). -/
def executeKeep (vars : List String) (env : Env) : Env :=
  { env with currentRow := env.currentRow.filter (fun kv => decide (kv.1 ∈ vars)) }

/-- Interpreter::executeRetain (lines 534-539): append the listed
variables to the retainVars member of the interpreter. -/
def executeRetain (vars : List String) (env : Env) : Env :=
  { env with retainMember := env.retainMember ++ vars }

/-- Interpreter::executeArray (lines 542-560): the declared size must
match the variable count, then the array table is updated. -/
def executeArrayDecl (name : String) (size : ℕ) (vars : List String)
    (env : Env) : Env × Option String :=
  if size ≠ vars.length then
    (env, some "Array size does not match the number of variables.")
  else
    ({ env with arrays := aset env.arrays name vars }, none)

/-- Interpreter::executeIfThen inner loop (lines 301-319): only
assignments and OUTPUT statements are accepted inside the THEN branch;
an OUTPUT there only logs (executeOutput is a no-op and the shouldOutput
flag of executeDataStep is not reachable from here), and anything else
throws. -/
def runThenStmts (stmts : List DSStmt) (env : Env) : Env × Option String :=
  match stmts with
  | [] => (env, none)
  | s :: rest =>
    match s with
    | .assign v e =>
      match executeAssignment v e env with
      | (env1, some m) => (env1, some m)
      | (env1, none) => runThenStmts rest env1
    | .output => runThenStmts rest env
    | _ => (env, some "Unsupported statement in IF-THEN block.")

/-- Interpreter::executeIfThen (lines 301-319): evaluate the condition,
convert with toNumber and compare with the C++ test d != 0.0 (under
which NaN counts as true). -/
def executeIfThen (cond : Expr) (thenStmts : List DSStmt) (env : Env) : Env × Option String :=
  match evaluate cond env with
  | .error m => (env, some m)
  | .ok v => if truthy (toNumber v) then runThenStmts thenStmts env else (env, none)

/-- Loop-continuation test of Interpreter::executeDo for a positive
increment (line 613): the loop variable must currently hold a double and
satisfy value <= end under IEEE comparison (false when either side is
NaN). -/
def doCondLe (row : Row) (loopVar : String) (eEnd : SasNum) : Bool :=
  match rlookup row loopVar, eEnd with
  | some (.num v), some e => cmpLeB v (some e)
  | _, _ => false

/-- Loop-continuation test for a negative increment (line 653). -/
def doCondGe (row : Row) (loopVar : String) (eEnd : SasNum) : Bool :=
  match rlookup row loopVar, eEnd with
  | some (.num v), some e => cmpLeB (some e) v
  | _, _ => false

mutual

/-- One DATA-step statement as dispatched inside a DO-loop body
(Interpreter.cpp lines 615-643).  OUTPUT only logs here; an unsupported
statement throws.  The extra Nat in the executeDo result (its body
iteration count) is instrumentation for the theorems and is dropped. -/
def runInnerStmt : ℕ → DSStmt → Env → Option (Env × Option String)
  | 0, _, _ => none
  | _ + 1, .assign v e, env => some (executeAssignment v e env)
  | _ + 1, .ifThen c ts, env => some (executeIfThen c ts env)
  | _ + 1, .output, env => some (env, none)
  | _ + 1, .drop vs, env => some (executeDrop vs env, none)
  | _ + 1, .keep vs, env => some (executeKeep vs env, none)
  | _ + 1, .retain vs, env => some (executeRetain vs env, none)
  | _ + 1, .arrayDecl n sz vs, env => some (executeArrayDecl n sz vs env)
  | f + 1, .doLoop lv sE eE iE body, env =>
    (executeDo f lv sE eE iE body env).map (fun r => (r.1, r.2.1))
  | _ + 1, .mergeStmt _, env => some (env, some "Unsupported statement in DO loop.")
  | _ + 1, .byStmt _, env => some (env, some "Unsupported statement in DO loop.")

/-- Sequential execution of a DO-loop body; a throw aborts the rest. -/
def runInnerList : ℕ → List DSStmt → Env → Option (Env × Option String)
  | 0, _, _ => none
  | _ + 1, [], env => some (env, none)
  | f + 1, s :: rest, env =>
    match runInnerStmt f s env with
    | none => none
    | some (env1, some m) => some (env1, some m)
    | some (env1, none) => runInnerList f rest env1

/-- Interpreter::executeDo (Interpreter.cpp lines 593-697): evaluate
start, end and increment once (default increment 1.0), initialise the
loop variable, then run the positive- or negative-increment loop; an
increment of zero - or NaN, which fails both sign tests - throws.  The
final Nat counts executed body iterations (instrumentation only). -/
def executeDo : ℕ → String → Expr → Expr → Option Expr → List DSStmt → Env →
    Option (Env × Option String × ℕ)
  | 0, _, _, _, _, _, _ => none
  | f + 1, lv, sE, eE, iE, body, env =>
    match evaluate sE env with
    | .error m => some (env, some m, 0)
    | .ok sv =>
      match evaluate eE env with
      | .error m => some (env, some m, 0)
      | .ok ev =>
        match (match iE with
               | none => Except.ok (Value.num (some 1))
               | some ie => evaluate ie env) with
        | .error m => some (env, some m, 0)
        | .ok iv =>
          let s := toNumber sv
          let e := toNumber ev
          let env1 := { env with currentRow := rinsert env.currentRow lv (.num s) }
          match toNumber iv with
          | some i =>
            if 0 < i then executeDoPosLoop f lv e i body env1 0
            else if i < 0 then executeDoNegLoop f lv e i body env1 0
            else some (env1, some "DO loop increment cannot be zero.", 0)
          | none => some (env1, some "DO loop increment cannot be zero.", 0)

/-- Positive-increment while loop of executeDo (lines 612-651): run the
body, then add the increment to the loop variable via toNumber (an absent
loop variable default-constructs to 0.0 under operator[]). -/
def executeDoPosLoop : ℕ → String → SasNum → ℚ → List DSStmt → Env → ℕ →
    Option (Env × Option String × ℕ)
  | 0, _, _, _, _, _, _ => none
  | f + 1, lv, eEnd, inc, body, env, iters =>
    if doCondLe env.currentRow lv eEnd then
      match runInnerList f body env with
      | none => none
      | some (env1, some m) => some (env1, some m, iters)
      | some (env1, none) =>
        let cv := toNumber ((rlookup env1.currentRow lv).getD (.num (some 0)))
        let env2 := { env1 with
          currentRow := rinsert env1.currentRow lv (.num (numAdd cv (some inc))) }
        executeDoPosLoop f lv eEnd inc body env2 (iters + 1)
    else some (env, none, iters)

/-- Negative-increment while loop of executeDo (lines 652-691). -/
def executeDoNegLoop : ℕ → String → SasNum → ℚ → List DSStmt → Env → ℕ →
    Option (Env × Option String × ℕ)
  | 0, _, _, _, _, _, _ => none
  | f + 1, lv, eEnd, inc, body, env, iters =>
    if doCondGe env.currentRow lv eEnd then
      match runInnerList f body env with
      | none => none
      | some (env1, some m) => some (env1, some m, iters)
      | some (env1, none) =>
        let cv := toNumber ((rlookup env1.currentRow lv).getD (.num (some 0)))
        let env2 := { env1 with
          currentRow := rinsert env1.currentRow lv (.num (numAdd cv (some inc))) }
        executeDoNegLoop f lv eEnd inc body env2 (iters + 1)
    else some (env, none, iters)

end

/-- First column name of a row: row.columns.begin()->first, the
key-smallest column of the std::map, used by executeMerge to build the
renamed key for a conflicting variable (empty for an empty row, where the
C++ dereference would be undefined behaviour). -/
def firstColName (r : Row) : String :=
  match r with
  | [] => ""
  | (k, _) :: _ => k

/-- One merge step of Interpreter::executeMerge (lines 1324-1341) folded
over the columns of one matched row, with firstK the first column name of
that row: a BY variable is written unconditionally, a new variable is
inserted under its own name, and a variable already present in the merged
row is written under the renamed key firstK _ colName instead - the
existing (earlier) value keeps the original name. -/
def mergeRowIntoAux (byVars : List String) (firstK : String) (acc : Row)
    (entries : List (String × Value)) : Row :=
  entries.foldl
    (fun acc2 kv =>
      if kv.1 ∈ byVars then rinsert acc2 kv.1 kv.2
      else if (rlookup acc2 kv.1).isNone then rinsert acc2 kv.1 kv.2
      else rinsert acc2 (firstK ++ "_" ++ kv.1) kv.2)
    acc

/-- Merge one matched row into the accumulated merged row. -/
def mergeRowInto (byVars : List String) (acc : Row) (row : Row) : Row :=
  mergeRowIntoAux byVars (firstColName row) acc row

/-- The merged row built from all rows that tie on the minimal BY key
(Interpreter.cpp lines 1322-1341), in MERGE-list order. -/
def mergeMatchedRows (byVars : List String) (rows : List Row) : Row :=
  rows.foldl (mergeRowInto byVars) []

/-- BY value of a row for one BY variable as executeMerge reads it
(lines 1238-1245): a stored double (NaN included) is taken, anything else
- absent column or string - reads as 0.0. -/
def byVal (row : Row) (v : String) : SasNum :=
  match rlookup row v with
  | some (.num q) => q
  | _ => some 0

/-- BY key vector of a row. -/
def byVals (byVars : List String) (row : Row) : List SasNum :=
  byVars.map (byVal row)

/-- Lexicographic comparison of BY keys with NaN read as 0, used only by
the spec-modelled sorter below. -/
def lexLe : List ℚ → List ℚ → Bool
  | [], _ => true
  | _ :: _, [] => false
  | a :: as1, b :: bs1 => if a < b then true else if b < a then false else lexLe as1 bs1

/-- Sort key of a row for the sorter: BY values with missing or
non-numeric read as 0. -/
def sortKey (byVars : List String) (row : Row) : List ℚ :=
  byVars.map (fun v =>
    match rlookup row v with
    | some (.num (some d)) => d
    | _ => 0)

/-- Stable insertion for the sorter. -/
def insertRowSorted (byVars : List String) (x : Row) : List Row → List Row
  | [] => [x]
  | y :: ys =>
    if lexLe (sortKey byVars x) (sortKey byVars y) then x :: y :: ys
    else y :: insertRowSorted byVars x ys

/-- Modelled from the spec: Sorter::sortDataset (Sorter.h is not under
src/).  Per spec sections 2 and 4.8 the sorter sorts rows stably in
ascending BY-variable order; keys are read like executeMerge reads BY
values. -/
def sortRows (byVars : List String) (rows : List Row) : List Row :=
  rows.foldr (insertRowSorted byVars) []

/-- Append several rows to a dataset. -/
def appendRowsToDS (env : Env) (name : String) (rows : List Row) : Env :=
  setRows env name (rowsOf env name ++ rows)

/-- The k-way merge while loop of Interpreter::executeMerge (lines
1228-1345), one recursive call per loop pass, with one iterator per input
dataset.  Out-of-range vector reads in the C++ consistency and minimum
computations (which occur when a dataset is exhausted, its current BY
vector being empty) are modelled by getD with the 0.0 the vectors are
filled from.  When after matching some input is exhausted, the source
discards the matched rows and dumps every remaining row of every input
individually, then breaks. -/
def mergeLoop (dsNames : List String) (byVars : List String) :
    ℕ → List ℕ → Env → Option (Env × Option String)
  | 0, _, _ => none
  | f + 1, iters, env =>
    let rowsList := dsNames.map (rowsOf env)
    let cbv : List (List SasNum) :=
      (List.zip rowsList iters).map
        (fun p => if p.2 < p.1.length then byVals byVars (p.1.getD p.2 []) else [])
    let anyRows := (List.zip rowsList iters).any (fun p => p.2 < p.1.length)
    if ¬ anyRows then some (env, none)
    else
      let refs : List SasNum := cbv.headD []
      let mismatch := (List.range byVars.length).any (fun j =>
        (cbv.drop 1).any (fun bv => cmpNeB (bv.getD j (some 0)) (refs.getD j (some 0))))
      if mismatch then
        some (env, some "Data type mismatch for BY variable across datasets.")
      else
        let minBY : List SasNum :=
          (cbv.drop 1).foldl
            (fun m bv => (List.range byVars.length).map (fun j =>
              if cmpLtB (bv.getD j (some 0)) (m.getD j (some 0)) then bv.getD j (some 0)
              else m.getD j (some 0)))
            (cbv.headD [])
        let matched : List Bool :=
          (List.zip (List.zip rowsList iters) cbv).map
            (fun p => decide (p.1.2 < p.1.1.length) &&
              !((List.range byVars.length).any (fun j =>
                cmpNeB (p.2.getD j (some 0)) (minBY.getD j (some 0)))))
        let matchedRows : List Row :=
          (List.zip (List.zip rowsList iters) matched).filterMap
            (fun p => if p.2 then some (p.1.1.getD p.1.2 []) else none)
        let iters2 : List ℕ :=
          (List.zip iters matched).map (fun p => if p.2 then p.1 + 1 else p.1)
        let allRows := (List.zip rowsList iters2).all (fun p => p.2 < p.1.length)
        if ¬ allRows then
          let env2 := (List.zip rowsList iters2).foldl
            (fun e p => appendRowsToDS e e.currentDSName (p.1.drop p.2)) env
          some (env2, none)
        else
          let mergedRow := mergeMatchedRows byVars matchedRows
          mergeLoop dsNames byVars f iters2
            (appendRowToDS env env.currentDSName mergedRow)

/-- Interpreter::executeMerge (Interpreter.cpp lines 1191-1349): resolve
or create every input dataset, throw if no BY statement has set
byVariables, then sort the inputs, clear the current output dataset
(env.getCurrentDataSet, modelled by currentDSName) and run the k-way
merge loop. -/
def executeMerge (dsNames : List String) (env : Env) (fuel : ℕ) :
    Option (Env × Option String) :=
  let env1 := dsNames.foldl getOrCreateDataset env
  if env1.byVariables = [] then
    some (env1, some "MERGE statement requires a preceding BY statement.")
  else
    let env2 := dsNames.foldl
      (fun e n => setRows e n (sortRows env1.byVariables (rowsOf e n))) env1
    let env3 := setRows env2 env2.currentDSName []
    mergeLoop dsNames env1.byVariables fuel (dsNames.map (fun _ => 0)) env3

/-- The per-iteration booleans of executeDataStep: shouldOutput and the
hasDrop / hasKeep / hasRetain markers (Interpreter.cpp lines 122-124 and
158-166). -/
structure IterFlags where
  shouldOutput : Bool
  hasDrop : Bool
  hasKeep : Bool
  hasRetain : Bool
deriving DecidableEq, Repr

/-- One DATA-step body statement at top level (Interpreter.cpp lines
169-201): same executors as in a DO body, but OUTPUT sets shouldOutput
and DROP / KEEP / RETAIN set their markers; MergeStatementNode and
ByStatementNode fall into the catch-all throw. -/
def runTopStmtDS (f : ℕ) (s : DSStmt) (env : Env) (fl : IterFlags) :
    Option (Env × Option String × IterFlags) :=
  match s with
  | .assign v e =>
    let r := executeAssignment v e env
    some (r.1, r.2, fl)
  | .ifThen c ts =>
    let r := executeIfThen c ts env
    some (r.1, r.2, fl)
  | .output => some (env, none, { fl with shouldOutput := true })
  | .drop vs => some (executeDrop vs env, none, { fl with hasDrop := true })
  | .keep vs => some (executeKeep vs env, none, { fl with hasKeep := true })
  | .retain vs => some (executeRetain vs env, none, { fl with hasRetain := true })
  | .arrayDecl n sz vs =>
    let r := executeArrayDecl n sz vs env
    some (r.1, r.2, fl)
  | .doLoop lv sE eE iE body =>
    match f with
    | 0 => none
    | f1 + 1 => (executeDo f1 lv sE eE iE body env).map (fun r => (r.1, r.2.1, fl))
  | .mergeStmt _ => some (env, some "Unsupported statement in DATA step.", fl)
  | .byStmt _ => some (env, some "Unsupported statement in DATA step.", fl)

/-- Sequential execution of the DATA-step body; a throw aborts the
iteration (and, uncaught inside executeDataStep, the whole step). -/
def runTopList (f : ℕ) (stmts : List DSStmt) (env : Env) (fl : IterFlags) :
    Option (Env × Option String × IterFlags) :=
  match stmts with
  | [] => some (env, none, fl)
  | s :: rest =>
    match runTopStmtDS f s env fl with
    | none => none
    | some (env1, some m, fl1) => some (env1, some m, fl1)
    | some (env1, none, fl1) => runTopList f rest env1 fl1

/-- Keep-filter applied at the end of an iteration (lines 205-227) with
the local keepVars vector - which is never populated, because nothing
pushes into it; the KEEP statement itself filtered the row already.  The
empty list is passed literally to keep the source shape visible. -/
def keepFilter (keepList : List String) (row : Row) : Row :=
  row.filter (fun kv => decide (kv.1 ∈ keepList))

/-- Drop-erase applied at the end of an iteration (lines 228-233) with
the equally never-populated local dropVars vector. -/
def dropErase (dropList : List String) (row : Row) : Row :=
  dropList.foldl rerase row

/-- One iteration of the executeDataStep row loop (Interpreter.cpp lines
145-254): install the input row as the current row, run the body with
fresh flags, apply the end-of-iteration DROP/KEEP blocks (over the empty
local lists) and emit the current row if shouldOutput was set.  The
RETAIN apply/store blocks iterate the local retainVars vector, which is
never populated (executeRetain appends to the interpreter member
instead), hence they are no-ops and the previous iteration flags have no
observable effect; the flags are therefore modelled as starting false. -/
def dataStepIteration (f : ℕ) (body : List DSStmt) (outName : String)
    (env : Env) (row : Row) : Option (Env × Option String) :=
  let env0 := { env with currentRow := row }
  match runTopList f body env0 ⟨false, false, false, false⟩ with
  | none => none
  | some (env1, some m, _) => some (env1, some m)
  | some (env1, none, fl) =>
    let env2 :=
      if fl.hasDrop && fl.hasKeep then
        { env1 with currentRow := keepFilter [] env1.currentRow }
      else if fl.hasKeep then
        { env1 with currentRow := keepFilter [] env1.currentRow }
      else if fl.hasDrop then
        { env1 with currentRow := dropErase [] env1.currentRow }
      else env1
    if fl.shouldOutput then some (appendRowToDS env2 outName env2.currentRow, none)
    else some (env2, none)

/-- The row loop of executeDataStep over a snapshot of the input rows. -/
def dataStepRows (f : ℕ) (body : List DSStmt) (outName : String)
    (rows : List Row) (env : Env) : Option (Env × Option String) :=
  match rows with
  | [] => some (env, none)
  | row :: rest =>
    match dataStepIteration f body outName env row with
    | none => none
    | some (env1, some m) => some (env1, some m)
    | some (env1, none) => dataStepRows f body outName rest env1

/-- Whether a body statement is a MergeStatementNode (the pre-scan of
executeDataStep, lines 127-135). -/
def isMergeStmt (s : DSStmt) : Bool :=
  match s with
  | .mergeStmt _ => true
  | _ => false

/-- Interpreter::executeDataStep (Interpreter.cpp lines 67-291): resolve
input and output datasets (creating them when absent; the libref split is
collapsed into the full dataset-name key), pre-scan the body for a MERGE
statement and execute it first, then run the row loop; a throw inside
the loop propagates out of the step.  The final listing print is not
modelled.  currentDSName is set to the output dataset so that
getCurrentDataSet inside executeMerge resolves as the spec describes. -/
def executeDataStep (f : ℕ) (outName inName : String) (body : List DSStmt)
    (env : Env) : Option (Env × Option String) :=
  let envA := getOrCreateDataset env inName
  let envB := { getOrCreateDataset envA outName with currentDSName := outName }
  let merged : Option (Env × Option String) :=
    match body.find? isMergeStmt with
    | some (.mergeStmt ds) => executeMerge ds envB f
    | _ => some (envB, none)
  match merged with
  | none => none
  | some (envC, some m) => some (envC, some m)
  | some (envC, none) => dataStepRows f body outName (rowsOf envC inName) envC

/-- The cap message logged by executeDoLoop (line 1379). -/
def capMessage : String := "Potential infinite loop detected in DO loop. Exiting loop."

/-- Interpreter::executeDoLoop (Interpreter.cpp lines 1365-1409), the
conditional DO WHILE / DO UNTIL executor: one recursive call per while
pass.  The loop context is the single current loop (the loopStack paired
with its iteration counter; bodies that pop the stack via END are outside
this model, so the stack is collapsed to one level and the body is an
abstract state transformer, mirroring execute(currentLoop->body)).  The
counter is threaded exactly as in the source - which never increments
it.  The Bool in the result records whether the loop exited through the
MAX_ITERATIONS = 1000 cap branch (instrumentation for the theorems). -/
def executeDoLoopFuel (isWhile : Bool) (cond : Expr)
    (bodyExec : Env → Env × Option String) :
    ℕ → ℕ → Env → Option (Env × Option String × Bool)
  | 0, _, _ => none
  | f + 1, iterationCount, env =>
    if 1000 ≤ iterationCount then
      some ({ env with log := env.log ++ [capMessage] }, none, true)
    else
      match evaluate cond env with
      | .error m => some (env, some m, false)
      | .ok condValue =>
        let isTrue := match condValue with
          | .num d => truthy d
          | .str _ => false
        let conditionMet := if isWhile then isTrue else ! isTrue
        if conditionMet then
          match bodyExec env with
          | (env1, some m) => some (env1, some m, false)
          | (env1, none) => executeDoLoopFuel isWhile cond bodyExec f iterationCount env1
        else some (env, none, false)

/-- Character code 39, the single-quote delimiter. -/
def quoteChar1 : Char := Char.ofNat 39

/-- Character code 34, the double-quote delimiter. -/
def quoteChar2 : Char := Char.ofNat 34

/-- Lexer::scanString scanning loop (src/unnamed/part_001 lines
400-430), entered after the opening delimiter q has been consumed:
running off the end of the input throws Unterminated string literal; a
doubled delimiter appends one literal delimiter and continues; a single
delimiter closes the literal; every other character (newlines included)
is appended verbatim.  Returns the unescaped text and the unconsumed
rest of the input. -/
def scanStringBody (q : Char) : List Char → Except String (List Char × List Char)
  | [] => .error "Unterminated string literal"
  | c :: cs =>
    if c = q then
      match cs with
      | c2 :: cs2 =>
        if c2 = q then
          match scanStringBody q cs2 with
          | .error m => .error m
          | .ok (v, rest) => .ok (q :: v, rest)
        else .ok ([], c2 :: cs2)
      | [] => .ok ([], [])
    else
      match scanStringBody q cs with
      | .error m => .error m
      | .ok (v, rest) => .ok (c :: v, rest)

/-- Escape a literal body the way a SAS program text spells it: each
occurrence of the delimiter is doubled, every other character stands for
itself. -/
def escapeQuote (q : Char) : List Char → List Char
  | [] => []
  | c :: cs => if c = q then q :: q :: escapeQuote q cs else c :: escapeQuote q cs

/-- One row of the sum and count accumulation of
Interpreter::executeProcMeans (Interpreter.cpp lines 851-859): a row
whose column holds a double - NaN included, which then poisons the sum -
contributes to sum and count. -/
def meansStep (v : String) (acc : SasNum × ℕ) (row : Row) : SasNum × ℕ :=
  match rlookup row v with
  | some (.num q) => (numAdd acc.1 q, acc.2 + 1)
  | _ => acc

/-- Sum and count of a variable over all dataset rows. -/
def meansAccum (rows : List Row) (v : String) : SasNum × ℕ :=
  rows.foldl (meansStep v) (some 0, 0)

/-- The per-variable listing lines of executeProcMeans (lines 862-871):
for each requested variable one line carrying the mean sum/count, or
none (printed as a dot) when the count is zero.  No other statistic is
computed or written. -/
def executeProcMeansLines (rows : List Row) (varNames : List String) :
    List (String × Option SasNum) :=
  varNames.map (fun v =>
    let acc := meansAccum rows v
    (v, if 0 < acc.2 then some (acc.1.map (fun x => x / (acc.2 : ℚ))) else none))

/-- The non-missing numeric values a column contributes, used to state
what the reported mean is. -/
def numColVals (rows : List Row) (v : String) : List ℚ :=
  rows.filterMap (fun r =>
    match rlookup r v with
    | some (.num (some q)) => some q
    | _ => none)

/-- The header fields of the PROC MEANS listing table (line 862 prints
Variable tab Mean). -/
def procMeansHeaderFields : List String := ["Variable", "Mean"]

/-- Modelled from the spec: the statistics table PROC MEANS is specified
to write (spec section 4.8: N, mean, min, max, std for each VAR). -/
def procMeansSpecHeaderFields : List String :=
  ["Variable", "N", "Mean", "Min", "Max", "Std"]

/-- TopStmt: the top-level statements dispatched by Interpreter::execute
(Interpreter.cpp lines 25-64) that this model covers; every node kind
not modelled behaves like the catch-all branch, represented by
unknownStmt (which throws Unknown AST node). -/
inductive TopStmt where
  | dataStep (outName inName : String) (body : List DSStmt)
  | mergeTop (dsNames : List String)
  | byTop (vars : List String)
  | titleTop (t : String)
  | unknownStmt
deriving Repr

/-- Interpreter::executeBy (lines 1352-1363): store the BY variables in
the interpreter context. -/
def executeBy (vars : List String) (env : Env) : Env :=
  { env with byVariables := vars }

/-- Interpreter::executeTitle (lines 356-360). -/
def executeTitle (t : String) (env : Env) : Env :=
  { env with title := t }

/-- Interpreter::execute dispatch (lines 25-64) for the modelled
statement kinds; the result carries the environment as left by the
statement together with the message of a thrown runtime_error. -/
def executeTop (fuel : ℕ) (s : TopStmt) (env : Env) : Option (Env × Option String) :=
  match s with
  | .dataStep o i b => executeDataStep fuel o i b env
  | .mergeTop ds => executeMerge ds env fuel
  | .byTop vs => some (executeBy vs env, none)
  | .titleTop t => some (executeTitle t env, none)
  | .unknownStmt => some (env, some "Unknown AST node encountered during execution.")

/-- The log line written by the catch block of executeProgram. -/
def errLine (m : String) : String := "Execution error: " ++ m

/-- Append the catch-block error line to the log. -/
def logError (env : Env) (m : String) : Env :=
  { env with log := env.log ++ [errLine m] }

/-- Interpreter::executeProgram (Interpreter.cpp lines 12-22): execute
each top-level statement in order; a runtime error is caught at the
statement boundary, logged, and execution continues with the next
statement.  none propagates fuel exhaustion (a diverging statement). -/
def executeProgram (fuel : ℕ) (stmts : List TopStmt) (env : Env) : Option Env :=
  match stmts with
  | [] => some env
  | s :: rest =>
    match executeTop fuel s env with
    | none => none
    | some (env1, none) => executeProgram fuel rest env1
    | some (env1, some m) => executeProgram fuel rest (logError env1 m)

/-- A fresh interpreter environment, used by concrete instances. -/
def envEx : Env := ⟨[], [], [], [], [], [], "", "", []⟩

/-- A fresh environment holding one five-row input dataset named test.dm,
mirroring the input of the DataStepSet1 regression test. -/
def envSet1 : Env :=
  { envEx with datasets :=
      [("test.dm", [[("x", .num (some 1))], [("x", .num (some 2))],
                    [("x", .num (some 3))], [("x", .num (some 4))],
                    [("x", .num (some 5))]])] }

section Lemmas

/-- Lookup after a map assignment: the assigned key reads the new value,
every other key is unchanged. -/
theorem rlookup_rinsert (r : Row) (k : String) (v : Value) (t : String) :
    rlookup (rinsert r k v) t = if t = k then some v else rlookup r t := by
  induction r with
  | nil =>
    by_cases h : k = t
    · subst h; simp [rinsert, rlookup]
    · have ht : ¬ t = k := fun hh => h hh.symm
      simp [rinsert, rlookup, h, ht]
  | cons kv rest ih =>
    obtain ⟨k1, v1⟩ := kv
    simp only [rinsert]
    by_cases h1 : k = k1
    · subst h1
      rw [if_pos rfl]
      by_cases h : k = t
      · subst h; simp [rlookup]
      · have ht : ¬ t = k := fun hh => h hh.symm
        simp [rlookup, h, ht]
    · rw [if_neg h1]
      by_cases h2 : strLtB k k1 = true
      · rw [if_pos h2]
        by_cases h : k = t
        · subst h; simp [rlookup]
        · have ht : ¬ t = k := fun hh => h hh.symm
          simp [rlookup, h, ht]
      · rw [if_neg h2]
        by_cases h3 : k1 = t
        · subst h3
          have ht : ¬ k1 = k := fun hh => h1 hh.symm
          simp [rlookup, ht]
        · simp [rlookup, h3, ih]

/-- Reassigning the same key overwrites the previous assignment. -/
theorem rinsert_rinsert (r : Row) (k : String) (a b : Value) :
    rinsert (rinsert r k a) k b = rinsert r k b := by
  induction r with
  | nil => simp [rinsert]
  | cons kv rest ih =>
    obtain ⟨k1, v1⟩ := kv
    by_cases h1 : k = k1
    · subst h1
      simp [rinsert]
    · by_cases h2 : strLtB k k1 = true
      · simp [rinsert, h1, h2]
      · simp [rinsert, h1, h2, ih]

/-- A key absent from the key list reads none. -/
theorem rlookup_eq_none_of_not_mem (r : Row) (k : String)
    (h : k ∉ r.map Prod.fst) : rlookup r k = none := by
  induction r with
  | nil => rfl
  | cons kv rest ih =>
    simp only [List.map_cons, List.mem_cons] at h
    push_neg at h
    have hk : ¬ kv.1 = k := fun hh => h.1 hh.symm
    simp [rlookup, hk, ih h.2]

/-- A successful lookup puts the key in the key list. -/
theorem mem_keys_of_rlookup (r : Row) (k : String) (x : Value)
    (h : rlookup r k = some x) : k ∈ r.map Prod.fst := by
  induction r with
  | nil => simp [rlookup] at h
  | cons kv rest ih =>
    simp only [rlookup] at h
    by_cases hk : kv.1 = k
    · simp [hk]
    · simp only [hk, if_false] at h
      simp [ih h]

end Lemmas

section ClaimC4

/-- claim C4 counterexample: the claim says a comparison or logical
operation with one missing operand always evaluates to false (0.0), but
the implementation computes NaN != 1 as true (1.0) and NaN and 1 as true
(1.0), because in C++ NaN != x holds and the truth test l != 0.0 holds
for NaN. -/
theorem claim_C4_counterexample :
    binOp "!=" none (some 1) = .ok (some 1) ∧
    binOp "and" none (some 1) = .ok (some 1) ∧
    (Except.ok (some (1 : ℚ)) : Except String SasNum) ≠ .ok (some 0) := by
  refine ⟨rfl, rfl, by simp⟩

/-- claim C4 (amended): with one missing (NaN) operand, the ordered
comparisons and equality do evaluate to 0.0, but != evaluates to 1.0,
and the logical operators treat missing as true: missing AND x is the
truth value of x and missing OR x is 1.0. -/
theorem claim_C4_missing_operand_semantics (q : ℚ) :
    binOp "<" none (some q) = .ok (some 0) ∧
    binOp "<" (some q) none = .ok (some 0) ∧
    binOp "<=" none (some q) = .ok (some 0) ∧
    binOp "<=" (some q) none = .ok (some 0) ∧
    binOp ">" none (some q) = .ok (some 0) ∧
    binOp ">" (some q) none = .ok (some 0) ∧
    binOp ">=" none (some q) = .ok (some 0) ∧
    binOp ">=" (some q) none = .ok (some 0) ∧
    binOp "==" none (some q) = .ok (some 0) ∧
    binOp "==" (some q) none = .ok (some 0) ∧
    binOp "!=" none (some q) = .ok (some 1) ∧
    binOp "!=" (some q) none = .ok (some 1) ∧
    binOp "and" none (some q) = .ok (some (if q = 0 then 0 else 1)) ∧
    binOp "and" (some q) none = .ok (some (if q = 0 then 0 else 1)) ∧
    binOp "or" none (some q) = .ok (some 1) ∧
    binOp "or" (some q) none = .ok (some 1) := by
  by_cases h : q = 0 <;>
    simp [binOp, cmpLtB, cmpLeB, cmpEqB, cmpNeB, truthy, h]

end ClaimC4

section ClaimC5

/-- A decimal digit is not C-locale whitespace. -/
theorem digit_not_space (c : Char) (h : c.isDigit = true) : isSpaceChar c = false := by
  revert h
  simp only [Char.isDigit, isSpaceChar]
  intro h
  by_contra hcon
  simp only [Bool.not_eq_false, Bool.or_eq_true, decide_eq_true_eq] at hcon
  rcases hcon with ((((h1 | h1) | h1) | h1) | h1) | h1 <;> subst h1 <;> simp_all

/-- A decimal digit is not a sign character. -/
theorem digit_ne_minus (c : Char) (h : c.isDigit = true) : ¬ c = '-' := by
  intro hcon; subst hcon; simp at h

/-- A decimal digit is not a plus. -/
theorem digit_ne_plus (c : Char) (h : c.isDigit = true) : ¬ c = '+' := by
  intro hcon; subst hcon; simp at h

/-- takeWhile keeps a list all of whose elements satisfy the test. -/
theorem takeWhile_of_all {α : Type} (p : α → Bool) (l : List α)
    (h : ∀ c ∈ l, p c = true) : l.takeWhile p = l := by
  induction l with
  | nil => rfl
  | cons c rest ih =>
    have hc := h c (by simp)
    simp [List.takeWhile_cons, hc, ih (fun x hx => h x (by simp [hx]))]

/-- dropWhile empties a list all of whose elements satisfy the test. -/
theorem dropWhile_of_all {α : Type} (p : α → Bool) (l : List α)
    (h : ∀ c ∈ l, p c = true) : l.dropWhile p = [] := by
  induction l with
  | nil => rfl
  | cons c rest ih =>
    have hc := h c (by simp)
    simp [List.dropWhile_cons, hc, ih (fun x hx => h x (by simp [hx]))]

/-- The stod model parses a pure digit string to its decimal value: such
strings are exactly the plain-integer case of the Number lexer rules. -/
theorem stodParse_digits (ds : List Char) (hne : ds ≠ [])
    (hd : ∀ c ∈ ds, c.isDigit = true) :
    stodParse (String.mk ds) = some (digitsToNat ds) := by
  obtain ⟨c, rest, rfl⟩ : ∃ c rest, ds = c :: rest := by
    cases ds with
    | nil => exact absurd rfl hne
    | cons c rest => exact ⟨c, rest, rfl⟩
  have hc := hd c (by simp)
  have hlist : (String.mk (c :: rest)).toList = c :: rest := rfl
  have hdrop : (c :: rest).dropWhile isSpaceChar = c :: rest := by
    simp [List.dropWhile_cons, digit_not_space c hc]
  have hsign : readSign (c :: rest) = (1, c :: rest) := by
    simp [readSign, digit_ne_minus c hc, digit_ne_plus c hc]
  have htake : (c :: rest).takeWhile Char.isDigit = c :: rest :=
    takeWhile_of_all _ _ hd
  have hdrop2 : (c :: rest).dropWhile Char.isDigit = [] :=
    dropWhile_of_all _ _ hd
  simp only [stodParse, hlist, hdrop, hsign, htake, hdrop2]
  have hfrac : fracToRat [] = 0 := by
    simp [fracToRat, digitsToNat]
  have hpow : pow10 0 = 1 := by
    simp [pow10]
  simp [hfrac, hpow]

/-- claim C5 counterexample: to_number of an unparseable string yields
0.0, not the numeric missing value as the claim states. -/
theorem claim_C5_counterexample :
    toNumber (.str "abc") = some 0 ∧ (some (0 : ℚ) : SasNum) ≠ none := by
  refine ⟨by decide, by decide⟩

/-- claim C5 (amended): to_number returns a numeric value unchanged
(missing included) and parses strings with std::stod - whose decimal
forms extend the Number lexer rules, pure digit strings parsing to their
value - but an unparseable string yields 0.0, not missing. -/
theorem claim_C5_toNumber_behavior :
    (∀ q : SasNum, toNumber (.num q) = q) ∧
    (∀ s : String, stodParse s = none → toNumber (.str s) = some 0) ∧
    (∀ ds : List Char, ds ≠ [] → (∀ c ∈ ds, c.isDigit = true) →
      toNumber (.str (String.mk ds)) = some (digitsToNat ds)) := by
  refine ⟨fun q => rfl, fun s hs => ?_, fun ds hne hd => ?_⟩
  · simp [toNumber, hs]
  · simp [toNumber, stodParse_digits ds hne hd]

/-- claim C5 witness: the theorem instantiated on the digit string 42. -/
theorem claim_C5_witness :
    toNumber (.str (String.mk ['4', '2'])) = some 42 := by
  have h := claim_C5_toNumber_behavior.2.2 ['4', '2'] (by decide) (by decide)
  rw [h]; decide

end ClaimC5

section ClaimC9

/-- claim C9: string-literal scanning with delimiter single or double
quote - a doubled delimiter inside the literal is lexed as one literal
delimiter character and every other character is taken verbatim (first
conjunct: scanning the escaped spelling of any body recovers exactly
that body, provided the following input does not begin with the
delimiter), and a literal left unterminated at end of input raises the
Unterminated string literal error (second conjunct). -/
theorem claim_C9_scanString (q : Char) (_hq : q = quoteChar1 ∨ q = quoteChar2) :
    (∀ (v rest : List Char), rest.head? ≠ some q →
      scanStringBody q (escapeQuote q v ++ q :: rest) = .ok (v, rest)) ∧
    (∀ v : List Char, scanStringBody q (escapeQuote q v) =
      .error "Unterminated string literal") := by
  constructor
  · intro v
    induction v with
    | nil =>
      intro rest hrest
      cases rest with
      | nil => simp [escapeQuote, scanStringBody]
      | cons c2 cs2 =>
        have hc2 : ¬ c2 = q := by
          intro hcon
          exact hrest (by simp [hcon])
        simp [escapeQuote, scanStringBody, hc2]
    | cons c v1 ih =>
      intro rest hrest
      by_cases hc : c = q
      · subst hc
        simp [escapeQuote, scanStringBody, ih rest hrest]
      · have he : escapeQuote q (c :: v1) = c :: escapeQuote q v1 := by
          simp [escapeQuote, hc]
        rw [he, List.cons_append, scanStringBody.eq_def]
        simp only [hc, if_false]
        rw [ih rest hrest]
  · intro v
    induction v with
    | nil => simp [escapeQuote, scanStringBody]
    | cons c v1 ih =>
      by_cases hc : c = q
      · subst hc
        simp [escapeQuote, scanStringBody, ih]
      · have he : escapeQuote q (c :: v1) = c :: escapeQuote q v1 := by
          simp [escapeQuote, hc]
        rw [he, scanStringBody.eq_def]
        simp only [hc, if_false]
        rw [ih]

/-- claim C9 witness: the theorem instantiated on the single-quote
delimiter, the body a b and the trailing input x. -/
theorem claim_C9_scanString_witness :
    scanStringBody quoteChar1 (escapeQuote quoteChar1 ['a', 'b'] ++ quoteChar1 :: ['x']) =
      .ok (['a', 'b'], ['x']) ∧
    scanStringBody quoteChar1 (escapeQuote quoteChar1 ['a', 'b']) =
      .error "Unterminated string literal" :=
  ⟨(claim_C9_scanString quoteChar1 (Or.inl rfl)).1 ['a', 'b'] ['x'] (by decide),
   (claim_C9_scanString quoteChar1 (Or.inl rfl)).2 ['a', 'b']⟩

end ClaimC9

section ClaimC8

/-- claim C8: array element access is 1-based - for a declared array
with variable list vars, reading or writing index i succeeds exactly when
1 <= i <= length vars, in which case it refers to the i-th variable of
the list (a read of a variable absent from the current row yields the 0.0
default); any index outside that range raises the out-of-bounds runtime
error. -/
theorem claim_C8_array_indexing (arrays : List (String × List String))
    (row : Row) (name : String) (vars : List String) (i : ℤ)
    (ha : alookup arrays name = some vars) :
    ((1 ≤ i ∧ i ≤ (vars.length : ℤ)) →
      ∃ varName, vars.get? (i - 1).toNat = some varName ∧
        getArrayElement arrays row name i = .ok ((rlookup row varName).getD (.num (some 0))) ∧
        ∀ v, setArrayElement arrays row name i v = .ok (rinsert row varName v)) ∧
    ((i < 1 ∨ (vars.length : ℤ) < i) →
      getArrayElement arrays row name i =
        .error ("Array index out of bounds for array: " ++ name) ∧
      ∀ v, setArrayElement arrays row name i v =
        .error ("Array index out of bounds for array: " ++ name)) := by
  constructor
  · rintro ⟨h1, h2⟩
    have hguard : (i < 1 || (vars.length : ℤ) < i) = false := by
      simp only [Bool.or_eq_false_iff, decide_eq_false_iff_not, not_lt]
      exact ⟨h1, h2⟩
    have hn : ((i - 1).toNat : ℤ) = i - 1 := Int.toNat_of_nonneg (by omega)
    have hlt : (i - 1).toNat < vars.length := by omega
    refine ⟨vars.getD (i - 1).toNat "", ?_, ?_, ?_⟩
    · rw [List.getD_eq_getElem?_getD, List.get?_eq_getElem?,
        List.getElem?_eq_getElem hlt]
      rfl
    · simp only [getArrayElement, ha, hguard, Bool.false_eq_true, if_false]
      cases hrow : rlookup row (vars.getD (i - 1).toNat "") <;> simp [hrow]
    · intro v
      simp [setArrayElement, ha, hguard]
  · intro hout
    have hguard : (i < 1 || (vars.length : ℤ) < i) = true := by
      rcases hout with h | h <;> simp [h]
    constructor
    · simp [getArrayElement, ha, hguard]
    · intro v
      simp [setArrayElement, ha, hguard]

/-- claim C8 witness: a two-variable array read and written at index 2,
and rejected at index 3. -/
theorem claim_C8_witness :
    getArrayElement [("arr", ["a", "b"])] [("a", Value.num (some 3))] "arr" 2 =
      .ok (Value.num (some 0)) ∧
    setArrayElement [("arr", ["a", "b"])] [("a", Value.num (some 3))] "arr" 2
      (Value.num (some 7)) =
      .ok [("a", Value.num (some 3)), ("b", Value.num (some 7))] ∧
    getArrayElement [("arr", ["a", "b"])] [("a", Value.num (some 3))] "arr" 3 =
      .error ("Array index out of bounds for array: " ++ "arr") := by
  have h := claim_C8_array_indexing [("arr", ["a", "b"])] [("a", Value.num (some 3))]
    "arr" ["a", "b"] 2 (by decide)
  have h3 := claim_C8_array_indexing [("arr", ["a", "b"])] [("a", Value.num (some 3))]
    "arr" ["a", "b"] 3 (by decide)
  obtain ⟨vn, hvn, hget, hset⟩ := h.1 (by constructor <;> decide)
  have h21 : ((2 : ℤ) - 1).toNat = 1 := rfl
  rw [h21] at hvn
  have hb : (["a", "b"] : List String).get? 1 = some "b" := rfl
  rw [hb] at hvn
  injection hvn with hvn1
  subst hvn1
  refine ⟨?_, ?_, (h3.2 (by right; decide)).1⟩
  · rw [hget]; rfl
  · rw [hset (Value.num (some 7))]
    simp only [rinsert]
    norm_num
    decide

end ClaimC8

section ClaimC2

/-- Option fallback used to describe merge lookups. -/
def optOr (a b : Option Value) : Option Value :=
  match a with
  | some x => some x
  | none => b

/-- One fold step of mergeRowIntoAux unrolled. -/
theorem mergeRowIntoAux_cons (byVars : List String) (fk : String) (acc : Row)
    (kv : String × Value) (rest : List (String × Value)) :
    mergeRowIntoAux byVars fk acc (kv :: rest) =
      mergeRowIntoAux byVars fk
        (if kv.1 ∈ byVars then rinsert acc kv.1 kv.2
         else if (rlookup acc kv.1).isNone then rinsert acc kv.1 kv.2
         else rinsert acc (fk ++ "_" ++ kv.1) kv.2) rest := by
  simp [mergeRowIntoAux]

/-- Folding entries none of which can write at key t leaves the lookup of
t untouched: every write lands either on the entry key itself or on its
renamed form. -/
theorem mergeRowIntoAux_lookup_preserved (byVars : List String) (fk : String)
    (entries : List (String × Value)) (acc : Row) (t : String)
    (h : ∀ kv ∈ entries, kv.1 ≠ t ∧ fk ++ "_" ++ kv.1 ≠ t) :
    rlookup (mergeRowIntoAux byVars fk acc entries) t = rlookup acc t := by
  induction entries generalizing acc with
  | nil => simp [mergeRowIntoAux]
  | cons kv rest ih =>
    rw [mergeRowIntoAux_cons]
    have hkv := h kv (by simp)
    have hrest : ∀ kv2 ∈ rest, kv2.1 ≠ t ∧ fk ++ "_" ++ kv2.1 ≠ t :=
      fun kv2 h2 => h kv2 (by simp [h2])
    have hne_t : ¬ t = kv.1 := fun hh => hkv.1 hh.symm
    have hne_rn : ¬ t = fk ++ "_" ++ kv.1 := fun hh => hkv.2 hh.symm
    rw [ih _ hrest]
    by_cases hby : kv.1 ∈ byVars
    · rw [if_pos hby, rlookup_rinsert, if_neg hne_t]
    · rw [if_neg hby]
      by_cases hfree : (rlookup acc kv.1).isNone = true
      · rw [if_pos hfree, rlookup_rinsert, if_neg hne_t]
      · rw [if_neg hfree, rlookup_rinsert, if_neg hne_rn]

/-- Folding entries that are all fresh with respect to the accumulated
row (and mutually distinct) inserts each under its own name: the final
lookup is the entry value when present, the old accumulated value
otherwise. -/
theorem mergeRowIntoAux_fresh_lookup (byVars : List String) (fk : String)
    (entries : List (String × Value)) (acc : Row) (t : String)
    (hnd : (entries.map Prod.fst).Nodup)
    (hfresh : ∀ kv ∈ entries, rlookup acc kv.1 = none) :
    rlookup (mergeRowIntoAux byVars fk acc entries) t =
      optOr (rlookup entries t) (rlookup acc t) := by
  induction entries generalizing acc with
  | nil => simp [mergeRowIntoAux, rlookup, optOr]
  | cons kv rest ih =>
    obtain ⟨k0, u0⟩ := kv
    rw [mergeRowIntoAux_cons]
    have hstep :
        (if k0 ∈ byVars then rinsert acc k0 u0
         else if (rlookup acc k0).isNone then rinsert acc k0 u0
         else rinsert acc (fk ++ "_" ++ k0) u0) = rinsert acc k0 u0 := by
      by_cases hby : k0 ∈ byVars
      · simp [hby]
      · have hf : (rlookup acc k0).isNone := by
          rw [hfresh (k0, u0) (by simp)]; rfl
        simp [hby, hf]
    rw [hstep]
    simp only [List.map_cons, List.nodup_cons] at hnd
    have hfresh2 : ∀ kv2 ∈ rest, rlookup (rinsert acc k0 u0) kv2.1 = none := by
      intro kv2 h2
      rw [rlookup_rinsert]
      have hne : kv2.1 ≠ k0 := by
        intro hcon
        exact hnd.1 (hcon ▸ List.mem_map_of_mem Prod.fst h2)
      simp [hne, hfresh kv2 (by simp [h2])]
    rw [ih _ hnd.2 hfresh2]
    by_cases ht : t = k0
    · subst ht
      have hrt : rlookup rest t = none := by
        apply rlookup_eq_none_of_not_mem
        exact hnd.1
      simp [rlookup, hrt, optOr, rlookup_rinsert]
    · have hne2 : ¬ k0 = t := fun hh => ht hh.symm
      simp [rlookup, hne2, optOr, rlookup_rinsert, ht]

/-- A successful lookup splits the list at its first hit. -/
theorem rlookup_split (r : Row) (t : String) (x : Value)
    (h : rlookup r t = some x) :
    ∃ pre post, r = pre ++ (t, x) :: post ∧ t ∉ pre.map Prod.fst := by
  induction r with
  | nil => simp [rlookup] at h
  | cons kv rest ih =>
    obtain ⟨k1, v1⟩ := kv
    by_cases hk : k1 = t
    · subst hk
      simp only [rlookup, if_pos rfl] at h
      injection h with h
      exact ⟨[], rest, by simp [h], by simp⟩
    · simp only [rlookup, hk, if_false] at h
      obtain ⟨pre, post, heq, hpre⟩ := ih h
      refine ⟨(k1, v1) :: pre, post, by simp [heq], ?_⟩
      simp only [List.map_cons, List.mem_cons]
      push_neg
      exact ⟨fun hh => hk hh.symm, hpre⟩

/-- Appending on the left of a string is injective. -/
theorem string_append_left_cancel (s a b : String) (h : s ++ a = s ++ b) :
    a = b := by
  have hd := congrArg String.data h
  simp only [String.data_append] at hd
  have h2 := List.append_cancel_left hd
  cases a; cases b
  simp only at h2
  simp [h2]

/-- claim C2 counterexample: for two matched rows sharing the non-BY
variable v with values 10 and 20, the merged row keeps the value 10 of
the earlier dataset under the name v - the claim says the later value 20
would win under that name. -/
theorem claim_C2_counterexample :
    rlookup (mergeMatchedRows ["id"]
        [[("id", Value.num (some 1)), ("v", Value.num (some 10))],
         [("id", Value.num (some 1)), ("v", Value.num (some 20))]]) "v" =
      some (Value.num (some 10)) ∧
    some (Value.num (some 10)) ≠ some (Value.num (some 20)) := by
  refine ⟨by decide, by simp⟩

/-- claim C2 (amended): when two merged inputs contribute the same non-BY
variable to the same output row, the value of the earlier dataset in the
MERGE list is kept under the variable's original name, and the later
dataset's value is stored under a renamed key built from the later row's
first column name.  The side conditions exclude rows whose column names
collide with the renamed key. -/
theorem claim_C2_merge_conflict (byVars : List String) (r1 r2 : Row)
    (v : String) (x1 x2 : Value)
    (hv_nby : v ∉ byVars)
    (h1 : rlookup r1 v = some x1) (h2 : rlookup r2 v = some x2)
    (hnd1 : (r1.map Prod.fst).Nodup) (hnd2 : (r2.map Prod.fst).Nodup)
    (hren_v : ∀ k ∈ r2.map Prod.fst, firstColName r2 ++ "_" ++ k ≠ v)
    (hrn2 : ∀ k ∈ r2.map Prod.fst, k ≠ firstColName r2 ++ "_" ++ v) :
    rlookup (mergeMatchedRows byVars [r1, r2]) v = some x1 ∧
    rlookup (mergeMatchedRows byVars [r1, r2]) (firstColName r2 ++ "_" ++ v) =
      some x2 := by
  set rn := firstColName r2 ++ "_" ++ v with hrn_def
  have hmm : mergeMatchedRows byVars [r1, r2] =
      mergeRowIntoAux byVars (firstColName r2)
        (mergeRowIntoAux byVars (firstColName r1) [] r1) r2 := by
    simp [mergeMatchedRows, mergeRowInto]
  set A := mergeRowIntoAux byVars (firstColName r1) [] r1 with hA_def
  have hA : ∀ t, rlookup A t = rlookup r1 t := by
    intro t
    rw [hA_def, mergeRowIntoAux_fresh_lookup byVars (firstColName r1) r1 [] t hnd1
      (fun kv _ => rfl)]
    simp [optOr, rlookup]
    cases rlookup r1 t <;> rfl
  obtain ⟨pre, post, hsplit, hpre⟩ := rlookup_split r2 v x2 h2
  have hpost : v ∉ post.map Prod.fst := by
    rw [hsplit] at hnd2
    simp only [List.map_append, List.map_cons, List.nodup_append] at hnd2
    have := hnd2.2.1
    simp only [List.nodup_cons] at this
    exact this.1
  have hkeys_sub_pre : ∀ k ∈ pre.map Prod.fst, k ∈ r2.map Prod.fst := by
    intro k hk
    rw [hsplit]
    simp only [List.map_append, List.map_cons]
    exact List.mem_append_left _ hk
  have hkeys_sub_post : ∀ k ∈ post.map Prod.fst, k ∈ r2.map Prod.fst := by
    intro k hk
    rw [hsplit]
    simp only [List.map_append, List.map_cons]
    refine List.mem_append_right _ ?_
    simp [hk]
  have hv_mem : v ∈ r2.map Prod.fst := mem_keys_of_rlookup r2 v x2 h2
  have hpre_cond : ∀ kv ∈ pre, kv.1 ≠ v ∧ firstColName r2 ++ "_" ++ kv.1 ≠ v := by
    intro kv hkv
    constructor
    · intro hcon
      exact hpre (hcon ▸ List.mem_map_of_mem Prod.fst hkv)
    · exact hren_v kv.1 (hkeys_sub_pre kv.1 (List.mem_map_of_mem Prod.fst hkv))
  have hpre_cond_rn : ∀ kv ∈ pre, kv.1 ≠ rn ∧ firstColName r2 ++ "_" ++ kv.1 ≠ rn := by
    intro kv hkv
    have hmem := hkeys_sub_pre kv.1 (List.mem_map_of_mem Prod.fst hkv)
    constructor
    · exact hrn2 kv.1 hmem
    · intro hcon
      have : kv.1 = v := string_append_left_cancel (firstColName r2 ++ "_") kv.1 v
        (by
          have h1' : firstColName r2 ++ "_" ++ kv.1 = (firstColName r2 ++ "_") ++ kv.1 := by
            rw [String.append_assoc]
          have h2' : rn = (firstColName r2 ++ "_") ++ v := by
            rw [hrn_def, String.append_assoc]
          rw [← h1', ← h2']
          exact hcon)
      exact hpre ((this ▸ List.mem_map_of_mem Prod.fst hkv))
  have hpost_cond : ∀ kv ∈ post, kv.1 ≠ v ∧ firstColName r2 ++ "_" ++ kv.1 ≠ v := by
    intro kv hkv
    constructor
    · intro hcon
      exact hpost (hcon ▸ List.mem_map_of_mem Prod.fst hkv)
    · exact hren_v kv.1 (hkeys_sub_post kv.1 (List.mem_map_of_mem Prod.fst hkv))
  have hpost_cond_rn : ∀ kv ∈ post, kv.1 ≠ rn ∧ firstColName r2 ++ "_" ++ kv.1 ≠ rn := by
    intro kv hkv
    have hmem := hkeys_sub_post kv.1 (List.mem_map_of_mem Prod.fst hkv)
    constructor
    · exact hrn2 kv.1 hmem
    · intro hcon
      have : kv.1 = v := string_append_left_cancel (firstColName r2 ++ "_") kv.1 v
        (by
          have h1' : firstColName r2 ++ "_" ++ kv.1 = (firstColName r2 ++ "_") ++ kv.1 := by
            rw [String.append_assoc]
          have h2' : rn = (firstColName r2 ++ "_") ++ v := by
            rw [hrn_def, String.append_assoc]
          rw [← h1', ← h2']
          exact hcon)
      exact hpost ((this ▸ List.mem_map_of_mem Prod.fst hkv))
  -- run the fold over r2 = pre ++ (v, x2) :: post starting from A
  have hAv : rlookup (mergeRowIntoAux byVars (firstColName r2) A pre) v = some x1 := by
    rw [mergeRowIntoAux_lookup_preserved byVars (firstColName r2) pre A v hpre_cond,
      hA, h1]
  have hfold : mergeRowIntoAux byVars (firstColName r2) A (pre ++ (v, x2) :: post) =
      mergeRowIntoAux byVars (firstColName r2)
        (rinsert (mergeRowIntoAux byVars (firstColName r2) A pre) rn x2) post := by
    have e1 : mergeRowIntoAux byVars (firstColName r2) A (pre ++ (v, x2) :: post) =
        mergeRowIntoAux byVars (firstColName r2)
          (mergeRowIntoAux byVars (firstColName r2) A pre) ((v, x2) :: post) := by
      simp [mergeRowIntoAux, List.foldl_append]
    rw [e1, mergeRowIntoAux_cons]
    have hcond : (rlookup (mergeRowIntoAux byVars (firstColName r2) A pre) v).isNone = false := by
      rw [hAv]; rfl
    simp only [hv_nby, if_false, hcond, Bool.false_eq_true, hrn_def]
  have hrn_ne_v : rn ≠ v := hren_v v hv_mem
  have hre : mergeRowIntoAux byVars (firstColName r2) A r2 =
      mergeRowIntoAux byVars (firstColName r2)
        (rinsert (mergeRowIntoAux byVars (firstColName r2) A pre) rn x2) post := by
    rw [← hfold]
    exact congrArg (mergeRowIntoAux byVars (firstColName r2) A) hsplit
  constructor
  · rw [hmm, hre,
      mergeRowIntoAux_lookup_preserved byVars (firstColName r2) post _ v hpost_cond,
      rlookup_rinsert]
    have hv_ne_rn : ¬ v = rn := fun hh => hrn_ne_v hh.symm
    rw [if_neg hv_ne_rn, hAv]
  · rw [hmm, hre,
      mergeRowIntoAux_lookup_preserved byVars (firstColName r2) post _ rn hpost_cond_rn,
      rlookup_rinsert]
    simp

/-- claim C2 witness: the amended theorem instantiated on the concrete
conflict of the counterexample. -/
theorem claim_C2_witness :
    rlookup (mergeMatchedRows ["id"]
        [[("id", Value.num (some 1)), ("v", Value.num (some 10))],
         [("id", Value.num (some 1)), ("v", Value.num (some 20))]]) "v" =
      some (Value.num (some 10)) ∧
    rlookup (mergeMatchedRows ["id"]
        [[("id", Value.num (some 1)), ("v", Value.num (some 10))],
         [("id", Value.num (some 1)), ("v", Value.num (some 20))]])
        (firstColName [("id", Value.num (some 1)), ("v", Value.num (some 20))] ++ "_" ++ "v") =
      some (Value.num (some 20)) :=
  claim_C2_merge_conflict ["id"]
    [("id", Value.num (some 1)), ("v", Value.num (some 10))]
    [("id", Value.num (some 1)), ("v", Value.num (some 20))]
    "v" (Value.num (some 10)) (Value.num (some 20))
    (by decide) (by decide) (by decide) (by decide) (by decide)
    (by decide) (by decide)

end ClaimC2

section ClaimC3

/-- Unfolding of the positive DO loop at one remaining unit step: with
the loop variable reading v and v <= e < v + 1, one more body pass runs
and then the loop exits with the variable at v + 1. -/
theorem executeDoPosLoop_unit (k : ℕ) :
    ∀ (e : ℚ) (lv : String) (v : ℚ) (env : Env) (iters f : ℕ),
      rlookup env.currentRow lv = some (.num (some v)) →
      v + k ≤ e → e < v + k + 1 → k + 2 ≤ f →
      executeDoPosLoop f lv (some e) 1 [] env iters =
        some ({ env with currentRow := rinsert env.currentRow lv (.num (some (v + k + 1))) },
          none, iters + (k + 1)) := by
  induction k with
  | zero =>
    intro e lv v env iters f hlv hle hlt hf
    obtain ⟨f1, rfl⟩ : ∃ f1, f = f1 + 1 := ⟨f - 1, by omega⟩
    obtain ⟨f2, rfl⟩ : ∃ f2, f1 = f2 + 1 := ⟨f1 - 1, by omega⟩
    have hle' : v ≤ e := by push_cast at hle; linarith
    have hcond : doCondLe env.currentRow lv (some e) = true := by
      simp [doCondLe, hlv, cmpLeB, hle']
    rw [executeDoPosLoop, hcond]
    simp only [if_true]
    rw [runInnerList]
    simp only [hlv, Option.getD_some]
    have hstep : toNumber (Value.num (some v)) = some v := rfl
    rw [hstep]
    have hadd : numAdd (some v) (some 1) = some (v + 1) := rfl
    rw [hadd]
    have hlv2 : rlookup (rinsert env.currentRow lv (Value.num (some (v + 1)))) lv =
        some (Value.num (some (v + 1))) := by
      rw [rlookup_rinsert]; simp
    have hlt' : ¬ (v + 1 ≤ e) := by push_cast at hlt; linarith
    have hcond2 : doCondLe (rinsert env.currentRow lv (Value.num (some (v + 1)))) lv
        (some e) = false := by
      simp [doCondLe, hlv2, cmpLeB, hlt']
    rw [executeDoPosLoop, hcond2]
    simp only [Bool.false_eq_true, if_false]
    norm_num

  | succ k ih =>
    intro e lv v env iters f hlv hle hlt hf
    obtain ⟨f1, rfl⟩ : ∃ f1, f = f1 + 1 := ⟨f - 1, by omega⟩
    obtain ⟨f2, rfl⟩ : ∃ f2, f1 = f2 + 1 := ⟨f1 - 1, by omega⟩
    have hle' : v ≤ e := by push_cast at hle; linarith
    have hcond : doCondLe env.currentRow lv (some e) = true := by
      simp [doCondLe, hlv, cmpLeB, hle']
    rw [executeDoPosLoop, hcond]
    simp only [if_true]
    rw [runInnerList]
    simp only [hlv, Option.getD_some]
    have hstep : toNumber (Value.num (some v)) = some v := rfl
    rw [hstep]
    have hadd : numAdd (some v) (some 1) = some (v + 1) := rfl
    rw [hadd]
    have hlv2 : rlookup (rinsert env.currentRow lv (Value.num (some (v + 1)))) lv =
        some (Value.num (some (v + 1))) := by
      rw [rlookup_rinsert]; simp
    have hrec := ih e lv (v + 1)
      { env with currentRow := rinsert env.currentRow lv (Value.num (some (v + 1))) }
      (iters + 1) (f2 + 1) hlv2 (by push_cast at hle ⊢; linarith)
      (by push_cast at hlt ⊢; linarith) (by omega)
    rw [hrec]
    dsimp only
    rw [rinsert_rinsert]
    have harith : v + 1 + (k : ℚ) + 1 = v + ((k : ℚ) + 1) + 1 := by ring
    rw [harith]
    have hiters : iters + 1 + (k + 1) = iters + (k + 1 + 1) := by omega
    rw [hiters]
    push_cast
    rfl

/-- The iterative DO with start s, end e, unit increment and empty body
executes exactly floor(e - s) + 1 = k + 1 body iterations when
s + k <= e < s + k + 1, leaving the loop variable at s + k + 1 and
raising no error, for any fuel at least k + 3 - no iteration cap of any
kind intervenes. -/
theorem executeDo_unit_formula (s e : ℚ) (k : ℕ) (lv : String) (env : Env) (f : ℕ)
    (hle : s + k ≤ e) (hlt : e < s + k + 1) (hf : k + 3 ≤ f) :
    executeDo f lv (.numE s) (.numE e) (some (.numE 1)) [] env =
      some ({ env with currentRow := rinsert env.currentRow lv (.num (some (s + k + 1))) },
        none, k + 1) := by
  obtain ⟨f1, rfl⟩ : ∃ f1, f = f1 + 1 := ⟨f - 1, by omega⟩
  rw [executeDo]
  simp only [evaluate]
  have h1 : toNumber (Value.num (some s)) = some s := rfl
  have h2 : toNumber (Value.num (some e)) = some e := rfl
  have h3 : toNumber (Value.num (some 1)) = some (1 : ℚ) := rfl
  rw [h1, h2, h3]
  simp only [show ((0 : ℚ) < 1) = True by simp, if_true]
  have hlv : rlookup (rinsert env.currentRow lv (Value.num (some s))) lv =
      some (Value.num (some s)) := by
    rw [rlookup_rinsert]; simp
  have hres := executeDoPosLoop_unit k e lv s
    { env with currentRow := rinsert env.currentRow lv (Value.num (some s)) }
    0 f1 hlv hle hlt (by omega)
  rw [hres]
  dsimp only
  rw [rinsert_rinsert]
  norm_num

/-- claim C3 (amended): no 1,000,000-iteration safety cap exists.  The
iterative DO executor runs its full inclusive range with no cap at all
(first conjunct: unit-step loops perform k + 1 body iterations for any k,
however large); a zero - or missing - increment throws the runtime error
DO loop increment cannot be zero (second conjunct); and the conditional
DO WHILE / UNTIL executor declares a cap of 1000 iterations but never
increments its counter, so the cap branch is unreachable from the initial
count 0 and no possible-infinite-loop error can ever be raised (third
conjunct: the cap-exit flag is false in every terminating run). -/
theorem claim_C3_loop_caps :
    (∀ (s e : ℚ) (k : ℕ) (lv : String) (env : Env) (f : ℕ),
      s + k ≤ e → e < s + k + 1 → k + 3 ≤ f →
      executeDo f lv (.numE s) (.numE e) (some (.numE 1)) [] env =
        some ({ env with currentRow := rinsert env.currentRow lv (.num (some (s + k + 1))) },
          none, k + 1)) ∧
    (∀ (lv : String) (s e : ℚ) (body : List DSStmt) (env : Env) (f : ℕ), 1 ≤ f →
      executeDo f lv (.numE s) (.numE e) (some (.numE 0)) body env =
        some ({ env with currentRow := rinsert env.currentRow lv (.num (some s)) },
          some "DO loop increment cannot be zero.", 0)) ∧
    (∀ (isWhile : Bool) (cond : Expr) (bodyExec : Env → Env × Option String)
        (fuel : ℕ) (env : Env) (res : Env × Option String × Bool),
      executeDoLoopFuel isWhile cond bodyExec fuel 0 env = some res →
      res.2.2 = false) := by
  refine ⟨fun s e k lv env f hle hlt hf =>
    executeDo_unit_formula s e k lv env f hle hlt hf, ?_, ?_⟩
  · intro lv s e body env f hf
    obtain ⟨f1, rfl⟩ : ∃ f1, f = f1 + 1 := ⟨f - 1, by omega⟩
    rw [executeDo]
    simp only [evaluate]
    have h1 : toNumber (Value.num (some s)) = some s := rfl
    have h2 : toNumber (Value.num (some e)) = some e := rfl
    have h3 : toNumber (Value.num (some 0)) = some (0 : ℚ) := rfl
    rw [h1, h2, h3]
    norm_num
  · intro isWhile cond bodyExec fuel
    induction fuel with
    | zero => intro env res h; simp [executeDoLoopFuel] at h
    | succ f ih =>
      intro env res h
      rw [executeDoLoopFuel] at h
      rw [if_neg (by omega : ¬ 1000 ≤ 0)] at h
      rcases hev : evaluate cond env with m | condValue <;> rw [hev] at h <;>
        dsimp only at h
      · injection h with h
        rw [← h]
      · have hbodycase : (match bodyExec env with
            | (env1, some m) => some (env1, some m, false)
            | (env1, none) => executeDoLoopFuel isWhile cond bodyExec f 0 env1) =
              some res → res.2.2 = false := by
          intro hcase
          rcases hbody : bodyExec env with ⟨env1, merr⟩
          rw [hbody] at hcase
          rcases merr with _ | m <;> dsimp only at hcase
          · exact ih env1 res hcase
          · injection hcase with hcase
            rw [← hcase]
        split at h <;> split at h <;>
          first
          | exact hbodycase h
          | (injection h with h; rw [← h])

/-- claim C3 counterexample: a DO loop from 1 to 1000001 by 1 performs
1,000,001 body iterations and terminates normally - more than the
1,000,000 the claim allows, and with no possible-infinite-loop runtime
error at any cap. -/
theorem claim_C3_counterexample :
    executeDo 1000004 "i" (.numE 1) (.numE 1000001) (some (.numE 1)) [] envEx =
      some ({ envEx with currentRow := [("i", Value.num (some 1000002))] },
        none, 1000001) ∧ 1000000 < 1000001 := by
  constructor
  · have h := executeDo_unit_formula 1 1000001 1000000 "i" envEx 1000004
      (by norm_num) (by norm_num) (by norm_num)
    rw [h]
    norm_num
    rfl
  · norm_num

/-- claim C3 witness: the amended theorem at a loop from 1 to 3, at a
zero increment, and at a one-pass conditional loop run. -/
theorem claim_C3_witness :
    executeDo 10 "i" (.numE 1) (.numE 3) (some (.numE 1)) [] envEx =
      some ({ envEx with currentRow := [("i", Value.num (some 4))] }, none, 3) ∧
    executeDo 1 "i" (.numE 1) (.numE 3) (some (.numE 0)) [] envEx =
      some ({ envEx with currentRow := [("i", Value.num (some 1))] },
        some "DO loop increment cannot be zero.", 0) ∧
    ((envEx, none, false) : Env × Option String × Bool).2.2 = false := by
  refine ⟨?_, ?_, ?_⟩
  · have h := claim_C3_loop_caps.1 1 3 2 "i" envEx 10 (by norm_num) (by norm_num)
      (by norm_num)
    rw [h]
    norm_num [envEx, rinsert]
  · have h := claim_C3_loop_caps.2.1 "i" 1 3 [] envEx 1 (by norm_num)
    rw [h]
    norm_num [envEx, rinsert]
  · exact claim_C3_loop_caps.2.2 true (.numE 0) (fun e => (e, none)) 1 envEx
      (envEx, none, false) (by rw [executeDoLoopFuel]; rfl)

end ClaimC3

section ClaimC1

/-- The dataset rows read through any name are unchanged by creating a
(possibly other) dataset: a fresh dataset is created empty, and an absent
dataset already read as empty. -/
theorem rowsOf_getOrCreate (env : Env) (n m : String) :
    rowsOf (getOrCreateDataset env n) m = rowsOf env m := by
  unfold getOrCreateDataset
  by_cases h : (dlookup env.datasets n).isSome
  · rw [if_pos h]
  · rw [if_neg h]
    unfold rowsOf
    dsimp only
    have hlk : ∀ l : List (String × List Row),
        dlookup (l ++ [(n, [])]) m =
          match dlookup l m with
          | some x => some x
          | none => if n = m then some [] else none := by
      intro l
      induction l with
      | nil => simp [dlookup]
      | cons kv rest ih =>
        by_cases hk : kv.1 = m <;> simp [dlookup, hk, ih]
    rw [hlk]
    rcases hdm : dlookup env.datasets m with _ | x
    · by_cases hnm : n = m
      · subst hnm
        simp
      · simp [hnm]
    · simp

/-- The row loop of a DATA step whose body is empty touches nothing but
the current row: no output row is ever emitted. -/
theorem dataStepRows_nil_body (f : ℕ) (outName : String) (rows : List Row)
    (env : Env) :
    ∃ cr, dataStepRows f [] outName rows env =
      some ({ env with currentRow := cr }, none) := by
  induction rows generalizing env with
  | nil => exact ⟨env.currentRow, rfl⟩
  | cons row rest ih =>
    obtain ⟨cr, hcr⟩ := ih { env with currentRow := row }
    refine ⟨cr, ?_⟩
    have hiter : dataStepIteration f [] outName env row =
        some ({ env with currentRow := row }, none) := rfl
    rw [dataStepRows, hiter]
    dsimp only
    rw [hcr]

/-- claim C1: contrary to the implicit-output policy of the spec (and to
the DataStepSet1 regression test, which expects a step with no OUTPUT
statement to copy all five input rows), a DATA step whose body contains
no statement at all - in particular no OUTPUT - emits nothing: the
output dataset has exactly the rows it had before the step, no matter how
many input rows are iterated. -/
theorem claim_C1_no_implicit_output (f : ℕ) (outName inName : String) (env : Env) :
    ∃ res, executeDataStep f outName inName [] env = some (res, none) ∧
      rowsOf res outName = rowsOf env outName := by
  have hstep : executeDataStep f outName inName [] env =
      dataStepRows f [] outName
        (rowsOf { getOrCreateDataset (getOrCreateDataset env inName) outName with
          currentDSName := outName } inName)
        { getOrCreateDataset (getOrCreateDataset env inName) outName with
          currentDSName := outName } := rfl
  obtain ⟨cr, hcr⟩ := dataStepRows_nil_body f outName
    (rowsOf { getOrCreateDataset (getOrCreateDataset env inName) outName with
      currentDSName := outName } inName)
    { getOrCreateDataset (getOrCreateDataset env inName) outName with
      currentDSName := outName }
  refine ⟨_, by rw [hstep, hcr], ?_⟩
  show rowsOf _ outName = rowsOf env outName
  have h1 : rowsOf ({ { getOrCreateDataset (getOrCreateDataset env inName) outName with
      currentDSName := outName } with currentRow := cr }) outName =
      rowsOf (getOrCreateDataset (getOrCreateDataset env inName) outName) outName := rfl
  rw [h1, rowsOf_getOrCreate, rowsOf_getOrCreate]

end ClaimC1

section ClaimC6

/-- The PROC MEANS accumulation over rows that all carry a non-missing
numeric value for the variable: the sum is the exact sum of those values
and the count is the row count. -/
theorem meansAccum_all_num (v : String) (rows : List Row) :
    ∀ (s0 : ℚ) (c0 : ℕ),
      (∀ row ∈ rows, ∃ q : ℚ, rlookup row v = some (.num (some q))) →
      rows.foldl (meansStep v) (some s0, c0) =
        (some (s0 + (numColVals rows v).sum), c0 + rows.length) := by
  induction rows with
  | nil => intro s0 c0 _; simp [numColVals]
  | cons row rest ih =>
    intro s0 c0 h
    obtain ⟨q, hq⟩ := h row (by simp)
    have hstep : meansStep v (some s0, c0) row = (some (s0 + q), c0 + 1) := by
      simp [meansStep, hq, numAdd]
    rw [List.foldl_cons, hstep, ih (s0 + q) (c0 + 1) (fun r hr => h r (by simp [hr]))]
    have hvals : numColVals (row :: rest) v = q :: numColVals rest v := by
      simp [numColVals, hq]
    rw [hvals]
    simp only [List.sum_cons, List.length_cons, Prod.mk.injEq, Option.some.injEq]
    exact ⟨by ring, by omega⟩

/-- claim C6 counterexample: the PROC MEANS table header carries only the
two columns Variable and Mean, not the six columns the claimed statistic
set N, mean, min, max, std requires, and a per-variable line carries a
single statistic value. -/
theorem claim_C6_counterexample :
    procMeansHeaderFields ≠ procMeansSpecHeaderFields ∧
    executeProcMeansLines [[("x", Value.num (some 5))]] ["x"] =
      [("x", some (some 5))] := by
  refine ⟨by decide, ?_⟩
  have hacc : meansAccum [[("x", Value.num (some 5))]] "x" = (some 5, 1) := by
    unfold meansAccum
    simp [meansStep, rlookup, numAdd]
  simp [executeProcMeansLines, hacc]

/-- claim C6 (amended): PROC MEANS computes and writes only the mean.
The listing header is exactly Variable, Mean, and for a variable whose
value in every row is a non-missing numeric, the written line is the
variable name with the mean sum / N; no N, min, max or std statistic is
computed or written. -/
theorem claim_C6_means_only_mean :
    procMeansHeaderFields = ["Variable", "Mean"] ∧
    ∀ (rows : List Row) (v : String),
      (∀ row ∈ rows, ∃ q : ℚ, rlookup row v = some (.num (some q))) →
      rows ≠ [] →
      executeProcMeansLines rows [v] =
        [(v, some (some ((numColVals rows v).sum / (rows.length : ℚ))))] := by
  refine ⟨rfl, fun rows v h hne => ?_⟩
  have hacc : meansAccum rows v = (some ((numColVals rows v).sum), rows.length) := by
    unfold meansAccum
    rw [meansAccum_all_num v rows 0 0 h]
    simp
  have hlen : 0 < rows.length := List.length_pos.mpr hne
  simp [executeProcMeansLines, hacc, hlen]

/-- claim C6 witness: the mean of the two x values 1 and 3 is written as
2 and the header is Variable, Mean. -/
theorem claim_C6_witness :
    executeProcMeansLines [[("x", Value.num (some 1))], [("x", Value.num (some 3))]]
      ["x"] = [("x", some (some 2))] ∧
    procMeansHeaderFields = ["Variable", "Mean"] := by
  constructor
  · have h := claim_C6_means_only_mean.2
      [[("x", Value.num (some 1))], [("x", Value.num (some 3))]] "x"
      (by
        intro row hr
        simp only [List.mem_cons, List.not_mem_nil, or_false] at hr
        rcases hr with rfl | rfl
        · exact ⟨1, rfl⟩
        · exact ⟨3, rfl⟩)
      (by simp)
    rw [h]
    have hv : numColVals [[("x", Value.num (some 1))], [("x", Value.num (some 3))]]
        "x" = [1, 3] := by
      simp [numColVals, rlookup]
    rw [hv]
    norm_num
  · exact claim_C6_means_only_mean.1

end ClaimC6

section ClaimC7

/-- Program execution splits over list append: later statements run in
the state the earlier statements produced, whatever errors occurred. -/
theorem executeProgram_append (fuel : ℕ) (xs ys : List TopStmt) :
    ∀ env : Env, executeProgram fuel (xs ++ ys) env =
      (executeProgram fuel xs env).bind (fun e => executeProgram fuel ys e) := by
  induction xs with
  | nil => intro env; simp [executeProgram]
  | cons s1 xs1 ih =>
    intro env
    rw [List.cons_append, executeProgram, executeProgram]
    rcases executeTop fuel s1 env with _ | ⟨env1, merr⟩
    · simp
    · rcases merr with _ | m
      · exact ih env1
      · exact ih (logError env1 m)

/-- claim C7: a runtime error thrown by a top-level statement is caught
at the statement boundary - the catch block logs the Execution error line
onto the state the failing statement left behind - and execution resumes
with the next top-level statement: the remaining program runs exactly as
if started there, no statement is skipped and the interpreter does not
terminate. -/
theorem claim_C7_error_caught_and_resumed (fuel : ℕ) (pre : List TopStmt)
    (s : TopStmt) (post : List TopStmt) (env e1 e2 : Env) (m : String)
    (h1 : executeProgram fuel pre env = some e1)
    (h2 : executeTop fuel s e1 = some (e2, some m)) :
    executeProgram fuel (pre ++ s :: post) env =
      executeProgram fuel post (logError e2 m) := by
  rw [executeProgram_append fuel pre (s :: post) env, h1]
  show executeProgram fuel (s :: post) e1 = _
  rw [executeProgram, h2]

/-- claim C7 witness: an unknown statement throws, the error is logged,
and the program continues after it. -/
theorem claim_C7_witness :
    executeProgram 1 ([] ++ TopStmt.unknownStmt :: []) envEx =
      executeProgram 1 []
        (logError envEx "Unknown AST node encountered during execution.") :=
  claim_C7_error_caught_and_resumed 1 [] TopStmt.unknownStmt [] envEx envEx envEx
    "Unknown AST node encountered during execution." rfl rfl

end ClaimC7

section ClaimC10

/-- Creating datasets never touches the BY-variable list. -/
theorem byVariables_foldl_getOrCreate (dsNames : List String) :
    ∀ env : Env, (dsNames.foldl getOrCreateDataset env).byVariables =
      env.byVariables := by
  induction dsNames with
  | nil => intro env; rfl
  | cons n rest ih =>
    intro env
    rw [List.foldl_cons, ih]
    unfold getOrCreateDataset
    by_cases h : (dlookup env.datasets n).isSome
    · rw [if_pos h]
    · rw [if_neg h]

/-- Creating datasets never changes the rows read through any name. -/
theorem rowsOf_foldl_getOrCreate (dsNames : List String) :
    ∀ (env : Env) (m : String),
      rowsOf (dsNames.foldl getOrCreateDataset env) m = rowsOf env m := by
  induction dsNames with
  | nil => intro env m; rfl
  | cons n rest ih =>
    intro env m
    rw [List.foldl_cons, ih, rowsOf_getOrCreate]

/-- claim C10: a MERGE executed while the interpreter BY-variable list is
empty throws the MERGE-requires-BY runtime error immediately after
resolving (or creating) its input datasets - before sorting, before
clearing the output dataset and before the merge loop reads or combines
any row - so the rows of the current output dataset are exactly what they
were before the MERGE. -/
theorem claim_C10_merge_requires_by (dsNames : List String) (env : Env)
    (fuel : ℕ) (hby : env.byVariables = []) :
    executeMerge dsNames env fuel =
      some (dsNames.foldl getOrCreateDataset env,
        some "MERGE statement requires a preceding BY statement.") ∧
    rowsOf (dsNames.foldl getOrCreateDataset env) env.currentDSName =
      rowsOf env env.currentDSName := by
  constructor
  · unfold executeMerge
    rw [if_pos (by rw [byVariables_foldl_getOrCreate, hby])]
  · exact rowsOf_foldl_getOrCreate dsNames env env.currentDSName

/-- claim C10 witness: merging a single (nonexistent, hence created
empty) dataset with no BY statement in effect fails and leaves the
output dataset untouched. -/
theorem claim_C10_witness :
    executeMerge ["a"] envEx 5 =
      some ((["a"] : List String).foldl getOrCreateDataset envEx,
        some "MERGE statement requires a preceding BY statement.") ∧
    rowsOf ((["a"] : List String).foldl getOrCreateDataset envEx)
        envEx.currentDSName = rowsOf envEx envEx.currentDSName :=
  claim_C10_merge_requires_by ["a"] envEx 5 rfl

end ClaimC10

end Sass
